import Mathlib

/-!
Verification of the core of the Daily-News-Briefing pipeline
(`main_opensource.py`): the in-memory news store with sequential id
assignment, the citation-marker resolver, the sentiment-color mapping,
the prompt serializer, the e-mail renderer's picks section, and the
RSS ingestion loop.  Machine integers are modelled as `Nat`/`Int`,
Python strings as Lean `String` (lists of chars), Python dicts as
insertion-ordered association lists, and fallible lookups as `Option`.
-/

/-- ASCII whitespace recognised by Python's `str.strip` and `\s`
(restricted to the ASCII range used by the feeds). -/
def pySpace (c : Char) : Bool :=
  c = ' ' || c = '\t' || c = '\n' || c = '\r' || c = '\x0b' || c = '\x0c'

/-- `str.strip()` on a list of characters: drop whitespace from both ends. -/
def pyStripChars (cs : List Char) : List Char :=
  ((cs.dropWhile pySpace).reverse.dropWhile pySpace).reverse

/-- Python `s.strip()`. -/
def pythonStrip (s : String) : String := String.mk (pyStripChars s.data)

/-- Python slicing `s[:n]` (first `n` code points). -/
def strTake (s : String) (n : Nat) : String := String.mk (s.data.take n)

/-- The decimal digit character for `m % 10`-style values (0–9). -/
def digChar : Nat → Char
  | 0 => '0' | 1 => '1' | 2 => '2' | 3 => '3' | 4 => '4'
  | 5 => '5' | 6 => '6' | 7 => '7' | 8 => '8' | _ => '9'

/-- Accumulator loop of the decimal rendering of a natural number; the
first argument is fuel (`fuel = n` always suffices since the value shrinks
by a factor of ten per step). -/
def natDigitsF : Nat → Nat → List Char → List Char
  | 0, n, acc => digChar n :: acc
  | fuel+1, n, acc =>
    if n < 10 then digChar n :: acc
    else natDigitsF fuel (n / 10) (digChar (n % 10) :: acc)

/-- Decimal digits of a natural number, as produced by Python's `str`/f-strings. -/
def natDigits (n : Nat) : List Char := natDigitsF n n []

/-- Python `str(n)` / `f"{n}"` for a natural number. -/
def natStr (n : Nat) : String := String.mk (natDigits n)

theorem digChar_isDigit (m : Nat) : (digChar m).isDigit = true := by
  unfold digChar
  split <;> rfl

theorem natDigitsF_mem : ∀ (f n : Nat) (acc : List Char) (c : Char),
    c ∈ natDigitsF f n acc → c ∈ acc ∨ ∃ m, c = digChar m := by
  intro f
  induction f with
  | zero =>
    intro n acc c hc
    rcases List.mem_cons.mp hc with h1 | h1
    · exact Or.inr ⟨n, h1⟩
    · exact Or.inl h1
  | succ g ih =>
    intro n acc c hc
    unfold natDigitsF at hc
    by_cases h : n < 10
    · rw [if_pos h] at hc
      rcases List.mem_cons.mp hc with h1 | h1
      · exact Or.inr ⟨n, h1⟩
      · exact Or.inl h1
    · rw [if_neg h] at hc
      rcases ih (n / 10) _ c hc with h1 | h2
      · rcases List.mem_cons.mp h1 with h2 | h2
        · exact Or.inr ⟨n % 10, h2⟩
        · exact Or.inl h2
      · exact Or.inr h2

theorem natDigits_all_digit (n : Nat) : ∀ c ∈ natDigits n, c.isDigit = true := by
  intro c hc
  rcases natDigitsF_mem n n [] c hc with h | ⟨m, hm⟩
  · simp at h
  · rw [hm]; exact digChar_isDigit m

theorem natDigitsF_ne_nil : ∀ (f n : Nat) (acc : List Char), natDigitsF f n acc ≠ [] := by
  intro f
  induction f with
  | zero => intro n acc; exact List.cons_ne_nil _ _
  | succ g ih =>
    intro n acc
    unfold natDigitsF
    by_cases h : n < 10
    · rw [if_pos h]; exact List.cons_ne_nil _ _
    · rw [if_neg h]
      exact ih (n / 10) _

theorem natDigits_ne_nil (n : Nat) : natDigits n ≠ [] := natDigitsF_ne_nil n n []

/-! ## The news store (`NewsDatabase` in the source) -/

/-- One stored article, as built by `NewsDatabase.add`. -/
structure NewsItem where
  id : Nat
  source : String
  title : String
  link : String
  summary : String
deriving DecidableEq

/-- A raw feed entry: `title` and `link` are attributes feedparser always
exposes for the claims at hand; `summary` is optional (`getattr` with
default `''` in the source). -/
structure RawEntry where
  title : String
  link : String
  summary : Option String
deriving DecidableEq

/-- Python dict assignment `d[k] = v` on an insertion-ordered association
list: an existing key is overwritten in place, a new key is appended. -/
def dictInsert (l : List (Nat × NewsItem)) (k : Nat) (v : NewsItem) :
    List (Nat × NewsItem) :=
  if l.any (fun p => p.1 == k) then
    l.map (fun p => if p.1 = k then (k, v) else p)
  else l ++ [(k, v)]

/-- The in-memory store: `items` is the insertion-ordered dict
`id → NewsItem`, `current_id` the next id to assign. -/
structure NewsDatabase where
  items : List (Nat × NewsItem)
  current_id : Nat
deriving DecidableEq

/-- A fresh store, as built by `NewsDatabase.__init__`. -/
def emptyDb : NewsDatabase := { items := [], current_id := 1 }

/-- `NewsDatabase.add`: strip the title, default and clip the summary to
250 characters, store under the next id, return the assigned id. -/
def NewsDatabase.add (db : NewsDatabase) (source_name : String) (entry : RawEntry) :
    Nat × NewsDatabase :=
  let title := pythonStrip entry.title
  let link := entry.link
  let summary := strTake (entry.summary.getD "") 250
  let item : NewsItem :=
    { id := db.current_id, source := source_name, title := title,
      link := link, summary := summary }
  (db.current_id,
   { items := dictInsert db.items db.current_id item,
     current_id := db.current_id + 1 })

/-- Dict lookup `items[idx]` guarded by `idx in items`. -/
def NewsDatabase.find (db : NewsDatabase) (idx : Nat) : Option NewsItem :=
  (db.items.find? (fun p => p.1 == idx)).map Prod.snd

/-- `NewsDatabase.get_link_by_id`: the stored link, or the placeholder `"#"`. -/
def NewsDatabase.get_link_by_id (db : NewsDatabase) (idx : Nat) : String :=
  match db.find idx with
  | some item => item.link
  | none => "#"

/-- The keys of the store, in insertion order. -/
def keysOf (db : NewsDatabase) : List Nat := db.items.map Prod.fst

/-- One line of `generate_prompt_text`. -/
def promptLine (idx : Nat) (item : NewsItem) : String :=
  "[ID: " ++ natStr idx ++ "] Title: " ++ item.title ++ " | Source: " ++
    item.source ++ " | Context: " ++ item.summary ++ "\n"

/-- `NewsDatabase.generate_prompt_text`: fold the per-item lines over the
dict in iteration (= insertion) order. -/
def NewsDatabase.generate_prompt_text (db : NewsDatabase) : String :=
  db.items.foldl (fun acc p => acc ++ promptLine p.1 p.2) ""

/-- Concatenation of a list of strings (the reference shape of the
prompt serialization: one record per stored item). -/
def strConcat : List String → String
  | [] => ""
  | s :: rest => s ++ strConcat rest

/-- Run a sequence of `add` calls, collecting the returned ids. -/
def runAdds : NewsDatabase → List (String × RawEntry) → List Nat × NewsDatabase
  | db, [] => ([], db)
  | db, (c, e) :: rest =>
    let r := db.add c e
    let rr := runAdds r.2 rest
    (r.1 :: rr.1, rr.2)

/-! ## Store lemmas: sequential id assignment -/

theorem range'_snoc (s n : Nat) : List.range' s (n+1) = List.range' s n ++ [s + n] := by
  rw [List.range'_concat s n]; norm_num

theorem dictInsert_not_mem (l : List (Nat × NewsItem)) (k : Nat) (v : NewsItem)
    (h : ∀ p ∈ l, p.1 ≠ k) : dictInsert l k v = l ++ [(k, v)] := by
  unfold dictInsert
  have hany : (l.any (fun p => p.1 == k)) = false := by
    simp only [List.any_eq_false, beq_iff_eq]
    exact h
  simp [hany]

theorem add_step (db : NewsDatabase) (c : String) (e : RawEntry) (m : Nat)
    (hk : keysOf db = List.range' 1 m) (hc : db.current_id = m + 1) :
    (db.add c e).1 = m + 1 ∧
    (db.add c e).2.items = db.items ++
      [(m + 1, { id := m + 1, source := c, title := pythonStrip e.title,
                 link := e.link, summary := strTake (e.summary.getD "") 250 })] ∧
    keysOf (db.add c e).2 = List.range' 1 (m + 1) ∧
    (db.add c e).2.current_id = m + 2 := by
  have hnm : ∀ p ∈ db.items, p.1 ≠ m + 1 := by
    intro p hp heq
    have h1 : p.1 ∈ keysOf db := List.mem_map_of_mem Prod.fst hp
    rw [hk] at h1
    have h2 := List.mem_range'_1.mp h1
    omega
  have hins := dictInsert_not_mem db.items (m + 1)
    { id := m + 1, source := c, title := pythonStrip e.title,
      link := e.link, summary := strTake (e.summary.getD "") 250 } hnm
  unfold NewsDatabase.add
  simp only [hc]
  refine ⟨trivial, ?_, ?_, trivial⟩
  · exact hins
  · show (dictInsert db.items (m+1) _).map Prod.fst = _
    rw [hins, List.map_append]
    have hkk : db.items.map Prod.fst = List.range' 1 m := hk
    rw [hkk, range'_snoc]
    simp [Nat.add_comm]

theorem runAdds_spec : ∀ (calls : List (String × RawEntry)) (db : NewsDatabase) (m : Nat),
    keysOf db = List.range' 1 m → db.current_id = m + 1 →
    (runAdds db calls).1 = List.range' (m+1) calls.length ∧
    keysOf (runAdds db calls).2 = List.range' 1 (m + calls.length) ∧
    (runAdds db calls).2.current_id = m + calls.length + 1 := by
  intro calls
  induction calls with
  | nil =>
    intro db m hk hc
    exact ⟨rfl, by simpa using hk, by simpa using hc⟩
  | cons ce rest ih =>
    intro db m hk hc
    obtain ⟨hid, _hitems, hk', hc'⟩ := add_step db ce.1 ce.2 m hk hc
    have hrec := ih (db.add ce.1 ce.2).2 (m + 1) hk' (by omega)
    unfold runAdds
    refine ⟨?_, ?_, ?_⟩
    · show (db.add ce.1 ce.2).1 :: (runAdds (db.add ce.1 ce.2).2 rest).1 = _
      rw [hid, hrec.1]
      rw [List.length_cons, List.range'_succ (m+1) rest.length 1]
    · show keysOf (runAdds (db.add ce.1 ce.2).2 rest).2 = _
      rw [hrec.2.1]
      congr 1
      simp [Nat.add_comm, Nat.add_assoc, Nat.add_left_comm]
    · show (runAdds (db.add ce.1 ce.2).2 rest).2.current_id = _
      rw [hrec.2.2]
      simp [Nat.add_comm, Nat.add_assoc, Nat.add_left_comm]

/-- C1: starting from a fresh store, any sequence of `add` calls (whatever
the categories) returns ids `1, 2, ..., n` in order, and the stored key
set is exactly `{1, ..., n}`, strictly increasing, with no gaps or reuse. -/
theorem ids_dense_c1 (calls : List (String × RawEntry)) :
    (runAdds emptyDb calls).1 = List.range' 1 calls.length ∧
    keysOf (runAdds emptyDb calls).2 = List.range' 1 calls.length ∧
    (keysOf (runAdds emptyDb calls).2).Pairwise (· < ·) := by
  have h := runAdds_spec calls emptyDb 0 rfl rfl
  refine ⟨by simpa using h.1, by simpa using h.2.1, ?_⟩
  have hp : (List.range' 1 calls.length).Pairwise (· < ·) := by
    have := List.pairwise_lt_range' 1 calls.length 1 (by omega)
    simpa using this
  rw [show keysOf (runAdds emptyDb calls).2 = List.range' 1 calls.length from by simpa using h.2.1]
  exact hp

/-! ## Lookup lemmas (`get_link_by_id`, `add`) -/

theorem find?_map_replace (l : List (Nat × NewsItem)) (k : Nat) (v : NewsItem)
    (h : l.any (fun p => p.1 == k) = true) :
    (l.map (fun p => if p.1 = k then (k, v) else p)).find? (fun p => p.1 == k) = some (k, v) := by
  induction l with
  | nil => simp at h
  | cons q rest ih =>
    rw [List.map_cons]
    by_cases hq : q.1 = k
    · rw [if_pos hq]
      exact List.find?_cons_of_pos _ (by simp)
    · rw [if_neg hq]
      rw [List.find?_cons_of_neg _ (by simp [hq])]
      apply ih
      rcases List.any_eq_true.mp h with ⟨x, hx, hxk⟩
      rcases List.mem_cons.mp hx with heq | hx'
      · exact absurd (heq ▸ (beq_iff_eq.mp hxk)) hq
      · exact List.any_eq_true.mpr ⟨x, hx', hxk⟩

theorem find?_append_right (l1 l2 : List (Nat × NewsItem)) (p : Nat × NewsItem → Bool)
    (h : ∀ x ∈ l1, p x = false) : (l1 ++ l2).find? p = l2.find? p := by
  induction l1 with
  | nil => rfl
  | cons q rest ih =>
    rw [List.cons_append, List.find?_cons_of_neg _ (by simp [h q (List.mem_cons_self q rest)])]
    exact ih (fun x hx => h x (List.mem_cons_of_mem q hx))

theorem dictInsert_find (l : List (Nat × NewsItem)) (k : Nat) (v : NewsItem) :
    (dictInsert l k v).find? (fun p => p.1 == k) = some (k, v) := by
  unfold dictInsert
  by_cases h : l.any (fun p => p.1 == k) = true
  · rw [if_pos h]
    exact find?_map_replace l k v h
  · rw [if_neg h]
    have h' : ∀ x ∈ l, (fun p : Nat × NewsItem => p.1 == k) x = false := by
      intro x hx
      have := List.any_eq_false.mp (Bool.eq_false_iff.mpr h) x hx
      simpa using this
    rw [find?_append_right l [(k, v)] _ h']
    exact List.find?_cons_of_pos _ (by simp)

theorem add_assigned_find (db : NewsDatabase) (c : String) (e : RawEntry) :
    ((db.add c e).2).find db.current_id = some
      { id := db.current_id, source := c, title := pythonStrip e.title,
        link := e.link, summary := strTake (e.summary.getD "") 250 } := by
  show ((dictInsert db.items db.current_id _).find? (fun p => p.1 == db.current_id)).map Prod.snd = _
  rw [dictInsert_find]
  rfl

theorem find_none_iff (db : NewsDatabase) (idx : Nat) :
    db.find idx = none ↔ idx ∉ keysOf db := by
  unfold NewsDatabase.find keysOf
  rw [Option.map_eq_none', List.find?_eq_none]
  constructor
  · intro h hmem
    rcases List.mem_map.mp hmem with ⟨p, hp, hfst⟩
    exact (h p hp) (by simp [hfst])
  · intro h p hp hbeq
    exact h (List.mem_map.mpr ⟨p, hp, by simpa using hbeq⟩)

/-- C2: `get_link_by_id` returns the stored link when the id is a key of
the store and the fixed placeholder `"#"` for every unknown id; it is a
total function, so no lookup can fail. -/
theorem lookup_link_c2 (db : NewsDatabase) (idx : Nat) :
    (db.find idx = none → db.get_link_by_id idx = "#") ∧
    (∀ it : NewsItem, db.find idx = some it → db.get_link_by_id idx = it.link) ∧
    (db.find idx = none ↔ idx ∉ keysOf db) := by
  refine ⟨?_, ?_, find_none_iff db idx⟩
  · intro h
    unfold NewsDatabase.get_link_by_id
    rw [h]
  · intro it h
    unfold NewsDatabase.get_link_by_id
    rw [h]

/-- A one-item store used to instantiate the lookup theorems. -/
def sampleItem : NewsItem :=
  { id := 1, source := "Macro", title := "T", link := "http://x", summary := "" }

/-- A concrete store with the single key 1. -/
def sampleDb : NewsDatabase := { items := [(1, sampleItem)], current_id := 2 }

theorem lookup_link_c2_witness :
    sampleDb.get_link_by_id 99 = "#" ∧ sampleDb.get_link_by_id 1 = "http://x" := by
  refine ⟨(lookup_link_c2 sampleDb 99).1 (by rfl), ?_⟩
  exact (lookup_link_c2 sampleDb 1).2.1 sampleItem (by rfl)

/-- C6: `add` never fails on a raw entry: a missing summary is stored as
the empty string and every stored summary is clipped to at most 250
characters; the entry is stored under the assigned id. -/
theorem add_safe_c6 (db : NewsDatabase) (src : String) (e : RawEntry) :
    ∃ it : NewsItem,
      ((db.add src e).2).find db.current_id = some it ∧
      (db.add src e).1 = db.current_id ∧
      it.summary = strTake (e.summary.getD "") 250 ∧
      it.summary.length ≤ 250 ∧
      (e.summary = none → it.summary = "") := by
  refine ⟨_, add_assigned_find db src e, rfl, rfl, ?_, ?_⟩
  · show ((e.summary.getD "").data.take 250).length ≤ 250
    rw [List.length_take]
    omega
  · intro h
    rw [h]
    rfl

theorem add_safe_c6_witness :
    ∃ it : NewsItem,
      ((emptyDb.add "Macro" { title := "T", link := "http://l", summary := none }).2).find 1 =
        some it ∧ it.summary = "" ∧ it.summary.length ≤ 250 := by
  obtain ⟨it, hfind, _, _, hlen, hnone⟩ :=
    add_safe_c6 emptyDb "Macro" { title := "T", link := "http://l", summary := none }
  exact ⟨it, hfind, hnone rfl, hlen⟩

/-! ## Substring containment (used by the prompt serializer and `"Bull" in tag`) -/

/-- Naive substring search on character lists. -/
def containsSub (needle : List Char) : List Char → Bool
  | [] => needle.isPrefixOf []
  | c :: rest => needle.isPrefixOf (c :: rest) || containsSub needle rest

/-- Python's `sub in hay` on strings. -/
def strContains (hay needle : String) : Bool := containsSub needle.data hay.data

theorem isPrefixOf_append_self (l t : List Char) : l.isPrefixOf (l ++ t) = true := by
  induction l with
  | nil => simp [List.isPrefixOf]
  | cons c l ih => simp [List.isPrefixOf, ih]

theorem containsSub_nil_needle (hay : List Char) : containsSub [] hay = true := by
  induction hay with
  | nil => rfl
  | cons c rest ih => simp [containsSub, List.isPrefixOf]

theorem containsSub_here (m t : List Char) : containsSub m (m ++ t) = true := by
  cases m with
  | nil => exact containsSub_nil_needle t
  | cons c m' =>
    show containsSub (c :: m') (c :: (m' ++ t)) = true
    simp [containsSub, isPrefixOf_append_self (c :: m') t]

theorem containsSub_cons (m : List Char) (c : Char) (t : List Char)
    (h : containsSub m t = true) : containsSub m (c :: t) = true := by
  simp [containsSub, h]

theorem containsSub_append_left (m s t : List Char)
    (h : containsSub m t = true) : containsSub m (s ++ t) = true := by
  induction s with
  | nil => simpa using h
  | cons c s ih => exact containsSub_cons m c _ ih

theorem containsSub_of_eq (m t hay : List Char) (h : hay = m ++ t) :
    containsSub m hay = true := by
  rw [h]; exact containsSub_here m t

/-! ## The prompt serializer (`generate_prompt_text`) -/

theorem foldl_prompt (l : List (Nat × NewsItem)) : ∀ acc : String,
    l.foldl (fun a p => a ++ promptLine p.1 p.2) acc =
      acc ++ strConcat (l.map (fun p => promptLine p.1 p.2)) := by
  induction l with
  | nil => intro acc; simp [strConcat]
  | cons p rest ih =>
    intro acc
    show (rest.foldl _ (acc ++ promptLine p.1 p.2)) = _
    rw [ih (acc ++ promptLine p.1 p.2)]
    show _ = acc ++ (promptLine p.1 p.2 ++ strConcat (rest.map (fun p => promptLine p.1 p.2)))
    rw [String.append_assoc]

theorem generate_prompt_text_eq (db : NewsDatabase) :
    db.generate_prompt_text = strConcat (db.items.map (fun p => promptLine p.1 p.2)) := by
  unfold NewsDatabase.generate_prompt_text
  rw [foldl_prompt db.items ""]
  simp

theorem promptLine_data (idx : Nat) (item : NewsItem) : (promptLine idx item).data =
    ("[ID: " : String).data ++ (natDigits idx ++ (("] Title: " : String).data ++
      (item.title.data ++ ((" | Source: " : String).data ++ (item.source.data ++
        ((" | Context: " : String).data ++ (item.summary.data ++ ("\n" : String).data))))))) := by
  simp [promptLine, natStr, String.data_append, List.append_assoc]

theorem promptLine_has_idtag (idx : Nat) (item : NewsItem) :
    strContains (promptLine idx item) ("[ID: " ++ natStr idx ++ "]") = true := by
  unfold strContains
  apply containsSub_of_eq _ ((" Title: " : String).data ++
    (item.title.data ++ ((" | Source: " : String).data ++ (item.source.data ++
      ((" | Context: " : String).data ++ (item.summary.data ++ ("\n" : String).data))))))
  rw [promptLine_data]
  have h1 : ("] Title: " : String).data = ']' :: (" Title: " : String).data := rfl
  have h2 : ("[ID: " ++ natStr idx ++ "]").data =
      ("[ID: " : String).data ++ (natDigits idx ++ [']']) := by
    simp [natStr, String.data_append, List.append_assoc]
  rw [h1, h2]
  simp [List.append_assoc]

theorem promptLine_has_title (idx : Nat) (item : NewsItem) :
    strContains (promptLine idx item) item.title = true := by
  unfold strContains
  rw [promptLine_data]
  apply containsSub_append_left
  apply containsSub_append_left
  apply containsSub_append_left
  exact containsSub_here _ _

theorem promptLine_has_source (idx : Nat) (item : NewsItem) :
    strContains (promptLine idx item) item.source = true := by
  unfold strContains
  rw [promptLine_data]
  apply containsSub_append_left
  apply containsSub_append_left
  apply containsSub_append_left
  apply containsSub_append_left
  apply containsSub_append_left
  exact containsSub_here _ _

theorem promptLine_has_summary (idx : Nat) (item : NewsItem) :
    strContains (promptLine idx item) item.summary = true := by
  unfold strContains
  rw [promptLine_data]
  apply containsSub_append_left
  apply containsSub_append_left
  apply containsSub_append_left
  apply containsSub_append_left
  apply containsSub_append_left
  apply containsSub_append_left
  apply containsSub_append_left
  exact containsSub_here _ _

theorem natDigits_count_nl (n : Nat) : (natDigits n).count '\n' = 0 := by
  rw [List.count_eq_zero]
  intro hmem
  have := natDigits_all_digit n '\n' hmem
  simp at this

theorem promptLine_count_nl (idx : Nat) (item : NewsItem) :
    (promptLine idx item).data.count '\n' =
      item.title.data.count '\n' + item.source.data.count '\n' +
        item.summary.data.count '\n' + 1 := by
  rw [promptLine_data]
  simp [List.count_append, natDigits_count_nl]
  omega

/-- C7: `generate_prompt_text` emits one `[ID: n] Title … | Source … | Context …`
record per stored item, newline-terminated, in ascending id order for any store
built by ingestion; every record contains the item's id tag, title, source and
summary, and the output is a function of the store contents alone. -/
theorem prompt_serialization_c7 (calls : List (String × RawEntry)) :
    (∀ db : NewsDatabase,
        db.generate_prompt_text = strConcat (db.items.map (fun p => promptLine p.1 p.2))) ∧
    (keysOf (runAdds emptyDb calls).2).Pairwise (· < ·) ∧
    (∀ (idx : Nat) (item : NewsItem),
        strContains (promptLine idx item) ("[ID: " ++ natStr idx ++ "]") = true ∧
        strContains (promptLine idx item) item.title = true ∧
        strContains (promptLine idx item) item.source = true ∧
        strContains (promptLine idx item) item.summary = true ∧
        (∃ pfx : List Char, (promptLine idx item).data = pfx ++ ['\n']) ∧
        (promptLine idx item).data.count '\n' =
          item.title.data.count '\n' + item.source.data.count '\n' +
            item.summary.data.count '\n' + 1) ∧
    (∀ db1 db2 : NewsDatabase, db1.items = db2.items →
        db1.generate_prompt_text = db2.generate_prompt_text) := by
  refine ⟨generate_prompt_text_eq, ?_, ?_, ?_⟩
  · have h := runAdds_spec calls emptyDb 0 rfl rfl
    rw [show keysOf (runAdds emptyDb calls).2 = List.range' 1 calls.length from by
      simpa using h.2.1]
    have hp := List.pairwise_lt_range' 1 calls.length 1 (by omega)
    simpa using hp
  · intro idx item
    refine ⟨promptLine_has_idtag idx item, promptLine_has_title idx item,
      promptLine_has_source idx item, promptLine_has_summary idx item, ?_,
      promptLine_count_nl idx item⟩
    refine ⟨("[ID: " ++ natStr idx ++ "] Title: " ++ item.title ++ " | Source: " ++
      item.source ++ " | Context: " ++ item.summary : String).data, ?_⟩
    show (_ ++ ("\n" : String)).data = _
    rw [String.data_append]
  · intro db1 db2 h
    rw [generate_prompt_text_eq, generate_prompt_text_eq, h]

theorem prompt_serialization_c7_witness :
    sampleDb.generate_prompt_text =
      strConcat (sampleDb.items.map (fun p => promptLine p.1 p.2)) ∧
    sampleDb.generate_prompt_text = sampleDb.generate_prompt_text := by
  exact ⟨(prompt_serialization_c7 []).1 sampleDb,
    (prompt_serialization_c7 []).2.2.2 sampleDb sampleDb rfl⟩

/-! ## The citation resolver (`process_citations`)

The source substitutes the pattern `\[(?:ID\s*:?\s*)?(\d+)\]` (IGNORECASE)
left to right over the text, replacing every non-overlapping match by an
HTML anchor.  Since `I`/`i`, `:`, whitespace, digits and `]` are pairwise
disjoint character classes, the regex is deterministic and is embedded as
a direct greedy matcher. -/

/-- Numeric value of a digit string (`int(match.group(1))`). -/
def digitsVal (ds : List Char) : Nat :=
  ds.foldl (fun a c => 10 * a + (c.toNat - 48)) 0

/-- `\s*`: drop leading whitespace. -/
def skipSpaces (cs : List Char) : List Char := cs.dropWhile pySpace

/-- `:?\s*`: an optional colon followed by optional whitespace. -/
def afterColon (cs : List Char) : List Char :=
  if cs.head? = some ':' then skipSpaces cs.tail else cs

/-- `(\d+)\]`: one or more digits directly followed by a closing bracket;
returns the parsed number and the rest of the input. -/
def matchNum (cs : List Char) : Option (Nat × List Char) :=
  let ds := cs.takeWhile Char.isDigit
  let rest := cs.dropWhile Char.isDigit
  if ds.isEmpty then none
  else if rest.head? = some ']' then some (digitsVal ds, rest.tail)
  else none

/-- The regex body after the opening `[`: an optional case-insensitive
`ID` label with optional colon/space, then digits and the closing `]`. -/
def tryMatch (cs : List Char) : Option (Nat × List Char) :=
  match cs with
  | c :: d :: rest =>
    if (c = 'I' ∨ c = 'i') ∧ (d = 'D' ∨ d = 'd') then
      matchNum (afterColon (skipSpaces rest))
    else matchNum cs
  | _ => matchNum cs

/-- The fixed part of the replacement anchor before the visible `[n]` label. -/
def anchorPre (db : NewsDatabase) (idx : Nat) : List Char :=
  (" <a href=\"" ++ db.get_link_by_id idx ++
    "\" style=\"color:#0056b3; text-decoration:none; font-weight:bold;\">").data

/-- The replacement text of `replace_match`: a leading space, an anchor
whose href is `get_link_by_id idx` and whose visible text is `[idx]`. -/
def citeAnchor (db : NewsDatabase) (idx : Nat) : List Char :=
  anchorPre db idx ++ '[' :: (natDigits idx ++ ']' :: ("</a>" : String).data)

/-- One token of the scan: a plain character or a matched citation marker. -/
inductive CiteTok where
  | chr (c : Char)
  | cite (n : Nat)
deriving DecidableEq

/-- Render one scan token: plain characters are copied, markers replaced. -/
def renderTok (db : NewsDatabase) : CiteTok → List Char
  | .chr c => [c]
  | .cite n => citeAnchor db n

/-- The left-to-right non-overlapping scan of `re.sub`, with fuel
(`fuel = length` always suffices since every step consumes a character). -/
def scanToksF : Nat → List Char → List CiteTok
  | _, [] => []
  | 0, _ :: _ => []
  | fuel+1, c :: rest =>
    if c = '[' then
      match tryMatch rest with
      | some (n, rest') => CiteTok.cite n :: scanToksF fuel rest'
      | none => CiteTok.chr c :: scanToksF fuel rest
    else CiteTok.chr c :: scanToksF fuel rest

/-- The scan of a character list into plain chars and citation markers. -/
def scanToks (cs : List Char) : List CiteTok := scanToksF cs.length cs

/-- The substitution loop of `re.sub`, with fuel: copy characters until a
marker matches, splice the replacement anchor, continue after the match. -/
def processF (db : NewsDatabase) : Nat → List Char → List Char
  | _, [] => []
  | 0, _ :: _ => []
  | fuel+1, c :: rest =>
    if c = '[' then
      match tryMatch rest with
      | some (n, rest') => citeAnchor db n ++ processF db fuel rest'
      | none => c :: processF db fuel rest
    else c :: processF db fuel rest

/-- `process_citations` on a character list. -/
def processCitationsChars (db : NewsDatabase) (cs : List Char) : List Char :=
  processF db cs.length cs

/-- `process_citations(text)`: replace every citation marker by its anchor. -/
def process_citations (db : NewsDatabase) (text : String) : String :=
  String.mk (processCitationsChars db text.data)

/-- A position in the text where the citation pattern matches. -/
def containsMarker : List Char → Bool
  | [] => false
  | c :: rest => (if c = '[' then (tryMatch rest).isSome else false) || containsMarker rest

/-! ## Resolver lemmas -/

theorem skipSpaces_le (cs : List Char) : (skipSpaces cs).length ≤ cs.length :=
  (List.dropWhile_sublist pySpace).length_le

theorem afterColon_le (cs : List Char) : (afterColon cs).length ≤ cs.length := by
  unfold afterColon
  by_cases h : cs.head? = some ':'
  · rw [if_pos h]
    calc (skipSpaces cs.tail).length ≤ cs.tail.length := skipSpaces_le cs.tail
      _ ≤ cs.length := by cases cs <;> simp
  · rw [if_neg h]

theorem matchNum_length (cs : List Char) (n : Nat) (r : List Char)
    (h : matchNum cs = some (n, r)) : r.length < cs.length := by
  unfold matchNum at h
  by_cases he : (cs.takeWhile Char.isDigit).isEmpty
  · rw [if_pos he] at h
    exact absurd h (by simp)
  · rw [if_neg he] at h
    by_cases hh : (cs.dropWhile Char.isDigit).head? = some ']'
    · rw [if_pos hh] at h
      have hr : r = (cs.dropWhile Char.isDigit).tail := by
        have := Option.some.inj h
        exact (Prod.mk.injEq _ _ _ _).mp this |>.2.symm
      have hne : cs.dropWhile Char.isDigit ≠ [] := by
        intro hnil
        rw [hnil] at hh
        simp at hh
      have h1 : (cs.dropWhile Char.isDigit).tail.length + 1 =
          (cs.dropWhile Char.isDigit).length := by
        cases hC : cs.dropWhile Char.isDigit with
        | nil => exact absurd hC hne
        | cons a l => simp
      have h2 : (cs.dropWhile Char.isDigit).length ≤ cs.length :=
        (List.dropWhile_sublist Char.isDigit).length_le
      have h3 : cs.takeWhile Char.isDigit ≠ [] := by
        intro hnil
        rw [hnil] at he
        exact he rfl
      have h4 : (cs.takeWhile Char.isDigit).length + (cs.dropWhile Char.isDigit).length
          = cs.length := by
        rw [← List.length_append, List.takeWhile_append_dropWhile]
      have h5 : 1 ≤ (cs.takeWhile Char.isDigit).length := by
        cases hT : cs.takeWhile Char.isDigit with
        | nil => exact absurd hT h3
        | cons a l => simp
      rw [hr]
      omega
    · rw [if_neg hh] at h
      exact absurd h (by simp)

theorem tryMatch_length (cs : List Char) (n : Nat) (r : List Char)
    (h : tryMatch cs = some (n, r)) : r.length < cs.length := by
  match cs with
  | [] => exact matchNum_length [] n r h
  | [c] => exact matchNum_length [c] n r h
  | c :: d :: rest =>
    show r.length < rest.length + 2
    by_cases hP : (c = 'I' ∨ c = 'i') ∧ (d = 'D' ∨ d = 'd')
    · have h' : matchNum (afterColon (skipSpaces rest)) = some (n, r) := by
        have : tryMatch (c :: d :: rest) =
            matchNum (afterColon (skipSpaces rest)) := by
          show (if _ then _ else _) = _
          rw [if_pos hP]
        rw [← this]; exact h
      have h1 := matchNum_length _ n r h'
      have h2 := afterColon_le (skipSpaces rest)
      have h3 := skipSpaces_le rest
      omega
    · have h' : matchNum (c :: d :: rest) = some (n, r) := by
        have : tryMatch (c :: d :: rest) = matchNum (c :: d :: rest) := by
          show (if _ then _ else _) = _
          rw [if_neg hP]
        rw [← this]; exact h
      have h1 := matchNum_length _ n r h'
      simpa using h1

theorem scanToksF_nil (f : Nat) : scanToksF f [] = [] := by cases f <;> rfl

theorem scanToksF_chr (f : Nat) (c : Char) (rest : List Char) (hc : c ≠ '[') :
    scanToksF (f+1) (c :: rest) = CiteTok.chr c :: scanToksF f rest := by
  show (if c = '[' then _ else _) = _
  rw [if_neg hc]

theorem scanToksF_none (f : Nat) (rest : List Char) (hm : tryMatch rest = none) :
    scanToksF (f+1) ('[' :: rest) = CiteTok.chr '[' :: scanToksF f rest := by
  show (if ('[' : Char) = '[' then _ else _) = _
  rw [if_pos rfl, hm]

theorem scanToksF_some (f : Nat) (rest r' : List Char) (n : Nat)
    (hm : tryMatch rest = some (n, r')) :
    scanToksF (f+1) ('[' :: rest) = CiteTok.cite n :: scanToksF f r' := by
  show (if ('[' : Char) = '[' then _ else _) = _
  rw [if_pos rfl, hm]

theorem scanToksF_fuel : ∀ (f1 : Nat) (cs : List Char), cs.length ≤ f1 →
    ∀ f2, cs.length ≤ f2 → scanToksF f1 cs = scanToksF f2 cs := by
  intro f1
  induction f1 with
  | zero =>
    intro cs h f2 _
    have : cs = [] := List.length_eq_zero.mp (Nat.le_zero.mp h)
    rw [this, scanToksF_nil, scanToksF_nil]
  | succ g ih =>
    intro cs hcs f2 hf2
    cases cs with
    | nil => rw [scanToksF_nil, scanToksF_nil]
    | cons c rest =>
      have hrest : rest.length ≤ g := by simpa using hcs
      cases f2 with
      | zero => simp at hf2
      | succ g2 =>
        have hrest2 : rest.length ≤ g2 := by simpa using hf2
        by_cases hc : c = '['
        · subst hc
          cases hm : tryMatch rest with
          | none =>
            rw [scanToksF_none g rest hm, scanToksF_none g2 rest hm]
            rw [ih rest hrest g2 hrest2]
          | some p =>
            rw [scanToksF_some g rest p.2 p.1 hm, scanToksF_some g2 rest p.2 p.1 hm]
            have hlt := tryMatch_length rest p.1 p.2 hm
            rw [ih p.2 (by omega) g2 (by omega)]
        · rw [scanToksF_chr g c rest hc, scanToksF_chr g2 c rest hc]
          rw [ih rest hrest g2 hrest2]

theorem scanToks_nil : scanToks [] = [] := rfl

theorem scanToks_chr (c : Char) (rest : List Char) (hc : c ≠ '[') :
    scanToks (c :: rest) = CiteTok.chr c :: scanToks rest := by
  unfold scanToks
  rw [show (c :: rest).length = rest.length + 1 from rfl]
  exact scanToksF_chr rest.length c rest hc

theorem scanToks_none (rest : List Char) (hm : tryMatch rest = none) :
    scanToks ('[' :: rest) = CiteTok.chr '[' :: scanToks rest := by
  unfold scanToks
  rw [show (('[' : Char) :: rest).length = rest.length + 1 from rfl]
  exact scanToksF_none rest.length rest hm

theorem scanToks_some (rest r' : List Char) (n : Nat)
    (hm : tryMatch rest = some (n, r')) :
    scanToks ('[' :: rest) = CiteTok.cite n :: scanToks r' := by
  unfold scanToks
  rw [show (('[' : Char) :: rest).length = rest.length + 1 from rfl]
  rw [scanToksF_some rest.length rest r' n hm]
  have hlt := tryMatch_length rest n r' hm
  rw [scanToksF_fuel rest.length r' (by omega) r'.length (le_refl _)]

theorem processF_eq_scanToksF (db : NewsDatabase) : ∀ (f : Nat) (cs : List Char),
    processF db f cs = ((scanToksF f cs).map (renderTok db)).flatten := by
  intro f
  induction f with
  | zero => intro cs; cases cs <;> rfl
  | succ g ih =>
    intro cs
    cases cs with
    | nil => rfl
    | cons c rest =>
      by_cases hc : c = '['
      · subst hc
        cases hm : tryMatch rest with
        | none =>
          rw [scanToksF_none g rest hm]
          show (if ('[' : Char) = '[' then _ else _) = _
          rw [if_pos rfl, hm]
          show ('[' : Char) :: processF db g rest = _
          rw [ih rest]
          simp [renderTok]
        | some p =>
          rw [scanToksF_some g rest p.2 p.1 hm]
          show (if ('[' : Char) = '[' then _ else _) = _
          rw [if_pos rfl, hm]
          show citeAnchor db p.1 ++ processF db g p.2 = _
          rw [ih p.2]
          simp [renderTok]
      · rw [scanToksF_chr g c rest hc]
        show (if c = '[' then _ else _) = _
        rw [if_neg hc]
        show c :: processF db g rest = _
        rw [ih rest]
        simp [renderTok]

theorem processCitationsChars_eq (db : NewsDatabase) (cs : List Char) :
    processCitationsChars db cs = ((scanToks cs).map (renderTok db)).flatten :=
  processF_eq_scanToksF db cs.length cs

theorem flatten_map_chr (db : NewsDatabase) (l : List Char) :
    ((l.map CiteTok.chr).map (renderTok db)).flatten = l := by
  induction l with
  | nil => rfl
  | cons c rest ih =>
    show renderTok db (CiteTok.chr c) ++ ((rest.map CiteTok.chr).map (renderTok db)).flatten
      = c :: rest
    rw [ih]
    rfl

theorem flatten_map_chr_comp (db : NewsDatabase) (l : List Char) :
    (l.map (renderTok db ∘ CiteTok.chr)).flatten = l := by
  rw [← List.map_map]
  exact flatten_map_chr db l

theorem scan_no_marker : ∀ cs : List Char, containsMarker cs = false →
    scanToks cs = cs.map CiteTok.chr := by
  intro cs
  induction cs with
  | nil => intro _; rfl
  | cons c rest ih =>
    intro h
    have hsplit : (if c = '[' then (tryMatch rest).isSome else false) = false ∧
        containsMarker rest = false := by
      have := h
      simp only [containsMarker, Bool.or_eq_false_iff] at this
      exact this
    by_cases hc : c = '['
    · subst hc
      have hm : tryMatch rest = none := by
        have h1 := hsplit.1
        rw [if_pos rfl] at h1
        exact Option.not_isSome_iff_eq_none.mp (by simp [h1])
      rw [scanToks_none rest hm, ih hsplit.2]
      rfl
    · rw [scanToks_chr c rest hc, ih hsplit.2]
      rfl

theorem process_no_marker (db : NewsDatabase) (cs : List Char)
    (h : containsMarker cs = false) : processCitationsChars db cs = cs := by
  rw [processCitationsChars_eq, scan_no_marker cs h, flatten_map_chr]

theorem isDigit_split (ds : List Char) (x : Char) (b : List Char)
    (hd : ∀ c ∈ ds, c.isDigit = true) (hx : x.isDigit = false) :
    (ds ++ x :: b).takeWhile Char.isDigit = ds ∧
    (ds ++ x :: b).dropWhile Char.isDigit = x :: b := by
  induction ds with
  | nil => simp [List.takeWhile_cons, List.dropWhile_cons, hx]
  | cons d ds ih =>
    have hdd : d.isDigit = true := hd d (List.mem_cons_self d ds)
    have ih' := ih (fun c hc => hd c (List.mem_cons_of_mem d hc))
    simp [List.takeWhile_cons, List.dropWhile_cons, hdd, ih'.1, ih'.2]

theorem tryMatch_digits (ds b : List Char) (hne : ds ≠ [])
    (hd : ∀ c ∈ ds, c.isDigit = true) :
    tryMatch (ds ++ ']' :: b) = some (digitsVal ds, b) := by
  have hsplit := isDigit_split ds ']' b hd (by decide)
  have hmn : matchNum (ds ++ ']' :: b) = some (digitsVal ds, b) := by
    unfold matchNum
    rw [hsplit.1, hsplit.2]
    rw [if_neg (by simpa [List.isEmpty_iff] using hne)]
    simp
  cases ds with
  | nil => exact absurd rfl hne
  | cons d0 ds' =>
    have hd0 : d0.isDigit = true := hd d0 (List.mem_cons_self d0 ds')
    cases ds' with
    | nil =>
      show tryMatch (d0 :: ']' :: b) = _
      have hcond : ¬((d0 = 'I' ∨ d0 = 'i') ∧ ((']' : Char) = 'D' ∨ (']' : Char) = 'd')) := by
        rintro ⟨-, h2 | h2⟩ <;> exact absurd h2 (by decide)
      show (if _ then _ else _) = _
      rw [if_neg hcond]
      exact hmn
    | cons d1 ds'' =>
      show tryMatch (d0 :: d1 :: (ds'' ++ ']' :: b)) = _
      have hcond : ¬((d0 = 'I' ∨ d0 = 'i') ∧ (d1 = 'D' ∨ d1 = 'd')) := by
        rintro ⟨h1 | h1, -⟩ <;> rw [h1] at hd0 <;> exact absurd hd0 (by decide)
      show (if _ then _ else _) = _
      rw [if_neg hcond]
      exact hmn

theorem marker_in_append : ∀ (a ds b : List Char), ds ≠ [] →
    (∀ c ∈ ds, c.isDigit = true) →
    containsMarker (a ++ '[' :: (ds ++ ']' :: b)) = true := by
  intro a ds b hne hd
  induction a with
  | nil =>
    show containsMarker ('[' :: (ds ++ ']' :: b)) = true
    simp [containsMarker, tryMatch_digits ds b hne hd]
  | cons c a' ih =>
    show containsMarker (c :: (a' ++ '[' :: (ds ++ ']' :: b))) = true
    simp [containsMarker, ih]

theorem marker_decomp : ∀ cs : List Char, containsMarker cs = true →
    ∃ (pre tl r' : List Char) (n : Nat),
      cs = pre ++ '[' :: tl ∧ tryMatch tl = some (n, r') ∧
      scanToks cs = pre.map CiteTok.chr ++ CiteTok.cite n :: scanToks r' := by
  intro cs
  induction cs with
  | nil => intro h; simp [containsMarker] at h
  | cons c rest ih =>
    intro h
    by_cases hc : c = '['
    · subst hc
      cases hm : tryMatch rest with
      | some p =>
        exact ⟨[], rest, p.2, p.1, rfl, hm, by rw [scanToks_some rest p.2 p.1 hm]; rfl⟩
      | none =>
        have hrest : containsMarker rest = true := by
          simp only [containsMarker, hm, if_pos rfl, Option.isSome_none,
            Bool.false_or] at h
          exact h
        obtain ⟨pre, tl, r', n, h1, h2, h3⟩ := ih hrest
        refine ⟨'[' :: pre, tl, r', n, by rw [h1]; rfl, h2, ?_⟩
        rw [scanToks_none rest hm, h3]
        rfl
    · have hrest : containsMarker rest = true := by
        simp only [containsMarker, if_neg hc, Bool.false_or] at h
        exact h
      obtain ⟨pre, tl, r', n, h1, h2, h3⟩ := ih hrest
      refine ⟨c :: pre, tl, r', n, by rw [h1]; rfl, h2, ?_⟩
      rw [scanToks_chr c rest hc, h3]
      rfl

theorem anchorPre_cons (db : NewsDatabase) (n : Nat) :
    anchorPre db n = ' ' :: ("<a href=\"" ++ db.get_link_by_id n ++
      "\" style=\"color:#0056b3; text-decoration:none; font-weight:bold;\">").data := by
  unfold anchorPre
  rw [String.data_append, String.data_append, String.data_append, String.data_append]
  rw [show (" <a href=\"" : String).data = ' ' :: ("<a href=\"" : String).data from rfl]
  simp

theorem citeAnchor_cons (db : NewsDatabase) (n : Nat) :
    citeAnchor db n = ' ' :: (("<a href=\"" ++ db.get_link_by_id n ++
      "\" style=\"color:#0056b3; text-decoration:none; font-weight:bold;\">").data ++
      '[' :: (natDigits n ++ ']' :: ("</a>" : String).data)) := by
  unfold citeAnchor
  rw [anchorPre_cons]
  rfl

theorem process_marker_decomp (db : NewsDatabase) (cs : List Char)
    (h : containsMarker cs = true) :
    ∃ (pre r' : List Char) (n : Nat) (tl : List Char),
      cs = pre ++ '[' :: tl ∧
      processCitationsChars db cs =
        pre ++ citeAnchor db n ++ processCitationsChars db r' := by
  obtain ⟨pre, tl, r', n, h1, _h2, h3⟩ := marker_decomp cs h
  refine ⟨pre, r', n, tl, h1, ?_⟩
  rw [processCitationsChars_eq, h3, List.map_append, List.flatten_append]
  rw [processCitationsChars_eq db r']
  simp [renderTok, flatten_map_chr, flatten_map_chr_comp]

theorem process_ne (db : NewsDatabase) (cs : List Char)
    (h : containsMarker cs = true) : processCitationsChars db cs ≠ cs := by
  obtain ⟨pre, r', n, tl, h1, hproc⟩ := process_marker_decomp db cs h
  intro heq
  rw [hproc, h1] at heq
  rw [List.append_assoc] at heq
  have heq2 := List.append_cancel_left heq
  rw [citeAnchor_cons] at heq2
  rw [List.cons_append] at heq2
  have := (List.cons.injEq _ _ _ _).mp heq2
  exact absurd this.1 (by decide)

theorem process_contains_marker (db : NewsDatabase) (cs : List Char)
    (h : containsMarker cs = true) :
    containsMarker (processCitationsChars db cs) = true := by
  obtain ⟨pre, r', n, tl, _h1, hproc⟩ := process_marker_decomp db cs h
  have hform : processCitationsChars db cs =
      (pre ++ anchorPre db n) ++ '[' :: (natDigits n ++ ']' ::
        (("</a>" : String).data ++ processCitationsChars db r')) := by
    rw [hproc]
    unfold citeAnchor
    simp [List.append_assoc]
  rw [hform]
  exact marker_in_append (pre ++ anchorPre db n) (natDigits n) _
    (natDigits_ne_nil n) (natDigits_all_digit n)

/-! ## Concrete stores for the resolver examples -/

/-- Item 3 of the spec's resolver example, linking to `http://a`. -/
def itemA : NewsItem :=
  { id := 3, source := "s", title := "t", link := "http://a", summary := "" }

/-- Item 5 of the spec's resolver example, linking to `http://b`. -/
def itemB : NewsItem :=
  { id := 5, source := "s", title := "t", link := "http://b", summary := "" }

/-- A store mapping 3 to `http://a` and 5 to `http://b`, with no item 7. -/
def store3 : NewsDatabase := { items := [(3, itemA), (5, itemB)], current_id := 6 }

/-- The replacement anchor as a string. -/
def anchorStr (db : NewsDatabase) (n : Nat) : String := String.mk (citeAnchor db n)

set_option maxRecDepth 8000 in
/-- C3: a single pass of `process_citations` replaces every scanned marker
(bare `[n]` or case-insensitive `ID`-decorated) by an anchor whose href is
`get_link_by_id n` and whose visible text is `[n]`; unknown ids render with
the placeholder href.  On `"see [3] and [ID:5] also [id: 7]"` over a store
with 3 ↦ `http://a`, 5 ↦ `http://b` and no 7, the output contains a link to
`http://a` labeled 3, one to `http://b` labeled 5, and a placeholder link
labeled 7. -/
theorem citations_resolve_c3 (db : NewsDatabase) (cs : List Char) (n : Nat) :
    processCitationsChars db cs = ((scanToks cs).map (renderTok db)).flatten ∧
    renderTok db (CiteTok.cite n) = citeAnchor db n ∧
    citeAnchor db n =
      anchorPre db n ++ '[' :: (natDigits n ++ ']' :: ("</a>" : String).data) ∧
    anchorPre db n = (" <a href=\"" ++ db.get_link_by_id n ++
      "\" style=\"color:#0056b3; text-decoration:none; font-weight:bold;\">").data ∧
    process_citations store3 "see [3] and [ID:5] also [id: 7]" =
      "see " ++ anchorStr store3 3 ++ " and " ++ anchorStr store3 5 ++
        " also " ++ anchorStr store3 7 ∧
    strContains (process_citations store3 "see [3] and [ID:5] also [id: 7]")
      "<a href=\"http://a\" style=\"color:#0056b3; text-decoration:none; font-weight:bold;\">[3]</a>" = true ∧
    strContains (process_citations store3 "see [3] and [ID:5] also [id: 7]")
      "<a href=\"http://b\" style=\"color:#0056b3; text-decoration:none; font-weight:bold;\">[5]</a>" = true ∧
    strContains (process_citations store3 "see [3] and [ID:5] also [id: 7]")
      "<a href=\"#\" style=\"color:#0056b3; text-decoration:none; font-weight:bold;\">[7]</a>" = true := by
  exact ⟨processCitationsChars_eq db cs, rfl, rfl, rfl,
    by decide, by decide, by decide, by decide⟩

set_option maxRecDepth 8000 in
/-- C4: on text containing no citation marker, `process_citations` returns
the input unchanged (hence is idempotent there), and a single pass renders
every scanned token, replacing each matched marker — including repeated
markers with the same id, as on `"x [3] y [3]"`. -/
theorem citations_single_pass_c4 (db : NewsDatabase) (cs : List Char) :
    (containsMarker cs = false → processCitationsChars db cs = cs ∧
      processCitationsChars db (processCitationsChars db cs) = processCitationsChars db cs) ∧
    processCitationsChars db cs = ((scanToks cs).map (renderTok db)).flatten ∧
    process_citations store3 "x [3] y [3]" =
      "x " ++ anchorStr store3 3 ++ " y " ++ anchorStr store3 3 := by
  refine ⟨?_, processCitationsChars_eq db cs, by decide⟩
  intro h
  have h1 := process_no_marker db cs h
  refine ⟨h1, ?_⟩
  rw [h1]
  exact h1

theorem citations_single_pass_c4_witness :
    containsMarker ("hello world".data) = false ∧
    processCitationsChars emptyDb ("hello world".data) = "hello world".data := by
  refine ⟨by decide, ?_⟩
  exact ((citations_single_pass_c4 emptyDb ("hello world".data)).1 (by decide)).1

/-- C10: `process_citations` is not idempotent on marker-containing text:
each replacement splices in a space-led anchor whose visible text `[n]` is
itself a marker, so the output of one pass still contains a marker and a
second pass produces a different string. -/
theorem citations_not_idempotent_c10 (db : NewsDatabase) (cs : List Char)
    (h : containsMarker cs = true) :
    containsMarker (processCitationsChars db cs) = true ∧
    (∃ (pre r' : List Char) (n : Nat),
        processCitationsChars db cs =
          pre ++ citeAnchor db n ++ processCitationsChars db r' ∧
        (citeAnchor db n).head? = some ' ') ∧
    processCitationsChars db cs ≠ cs ∧
    processCitationsChars db (processCitationsChars db cs) ≠
      processCitationsChars db cs := by
  refine ⟨process_contains_marker db cs h, ?_, process_ne db cs h, ?_⟩
  · obtain ⟨pre, r', n, tl, _h1, hproc⟩ := process_marker_decomp db cs h
    exact ⟨pre, r', n, hproc, by rw [citeAnchor_cons]; rfl⟩
  · exact process_ne db _ (process_contains_marker db cs h)

theorem citations_not_idempotent_c10_witness :
    containsMarker ("x [1]".data) = true ∧
    containsMarker (processCitationsChars emptyDb ("x [1]".data)) = true ∧
    processCitationsChars emptyDb ("x [1]".data) ≠ "x [1]".data := by
  have h := citations_not_idempotent_c10 emptyDb ("x [1]".data) (by decide)
  exact ⟨by decide, h.1, h.2.2.1⟩

/-! ## Sentiment color (`get_sentiment_color`) -/

/-- The argument of `get_sentiment_color` after Python's `float(score)`:
either a parsed numeric value or an unparsable input (in which case the
source's `except` branch fires). -/
inductive ScoreInput where
  | num (q : ℚ)
  | unparsable
deriving DecidableEq

/-- `get_sentiment_color`: fixed thresholds on the parsed score, neutral
fallback when parsing fails. -/
def get_sentiment_color : ScoreInput → String
  | .num s =>
    if 6 ≤ s then "#28a745"
    else if 2 ≤ s then "#5cdb5c"
    else if s ≤ -6 then "#dc3545"
    else if s ≤ -2 then "#ff6b6b"
    else "#6c757d"
  | .unparsable => "#6c757d"

/-- C5: the score-to-color mapping follows the spec's five bands (≥6
strong-positive, [2,6) mild-positive, ≤-6 strong-negative, (-6,-2]
mild-negative, (-2,2) neutral), any unparsable input yields the neutral
color (never an error), and 7, 3, -8, 0 map as the spec's examples say. -/
theorem sentiment_color_c5 (q : ℚ) :
    (6 ≤ q → get_sentiment_color (ScoreInput.num q) = "#28a745") ∧
    (2 ≤ q → q < 6 → get_sentiment_color (ScoreInput.num q) = "#5cdb5c") ∧
    (q ≤ -6 → get_sentiment_color (ScoreInput.num q) = "#dc3545") ∧
    (-6 < q → q ≤ -2 → get_sentiment_color (ScoreInput.num q) = "#ff6b6b") ∧
    (-2 < q → q < 2 → get_sentiment_color (ScoreInput.num q) = "#6c757d") ∧
    get_sentiment_color ScoreInput.unparsable = "#6c757d" ∧
    get_sentiment_color (ScoreInput.num 7) = "#28a745" ∧
    get_sentiment_color (ScoreInput.num 3) = "#5cdb5c" ∧
    get_sentiment_color (ScoreInput.num (-8)) = "#dc3545" ∧
    get_sentiment_color (ScoreInput.num 0) = "#6c757d" := by
  refine ⟨?_, ?_, ?_, ?_, ?_, rfl, ?_, ?_, ?_, ?_⟩
  · intro h
    simp only [get_sentiment_color]
    rw [if_pos h]
  · intro h1 h2
    simp only [get_sentiment_color]
    rw [if_neg (by linarith), if_pos h1]
  · intro h
    simp only [get_sentiment_color]
    rw [if_neg (by linarith), if_neg (by linarith), if_pos h]
  · intro h1 h2
    simp only [get_sentiment_color]
    rw [if_neg (by linarith), if_neg (by linarith), if_neg (by linarith), if_pos h2]
  · intro h1 h2
    simp only [get_sentiment_color]
    rw [if_neg (by linarith), if_neg (by linarith), if_neg (by linarith),
      if_neg (by linarith)]
  · norm_num [get_sentiment_color]
  · norm_num [get_sentiment_color]
  · norm_num [get_sentiment_color]
  · norm_num [get_sentiment_color]

theorem sentiment_color_c5_witness :
    get_sentiment_color (ScoreInput.num 7) = "#28a745" ∧
    get_sentiment_color (ScoreInput.num 3) = "#5cdb5c" ∧
    get_sentiment_color (ScoreInput.num (-8)) = "#dc3545" ∧
    get_sentiment_color (ScoreInput.num (-4)) = "#ff6b6b" ∧
    get_sentiment_color (ScoreInput.num 0) = "#6c757d" := by
  refine ⟨(sentiment_color_c5 7).1 (by norm_num),
    (sentiment_color_c5 3).2.1 (by norm_num) (by norm_num),
    (sentiment_color_c5 (-8)).2.2.1 (by norm_num),
    (sentiment_color_c5 (-4)).2.2.2.1 (by norm_num) (by norm_num),
    (sentiment_color_c5 0).2.2.2.2.1 (by norm_num) (by norm_num)⟩

/-! ## The report renderer (`generate_email_html`) -/

/-- One entry of `top_picks`: `id` and `reason` are accessed with `[...]`
in the source (required), `tag` with `.get` (optional, default "Neutral"). -/
structure TopPick where
  id : Nat
  tag : Option String
  reason : String
deriving DecidableEq

/-- The parsed model reply; every field is read with `.get` and a default
in the source, so each is optional here. -/
structure AnalysisResult where
  sentiment_score : Option ScoreInput
  sentiment_label : Option String
  sentiment_reason : Option String
  analysis_html : Option String
  top_picks : Option (List TopPick)

/-- `.replace("\n", "<br>")` on a character list. -/
def nlToBrChars : List Char → List Char
  | [] => []
  | c :: rest => (if c = '\n' then ("<br>" : String).data else [c]) ++ nlToBrChars rest

/-- Python `text.replace("\n", "<br>")`. -/
def newlineToBr (s : String) : String := String.mk (nlToBrChars s.data)

/-- Tag color: green family for bullish tags, red for bearish, else neutral. -/
def tagColor (tag : String) : String :=
  if strContains tag "Bull" then "#28a745"
  else if strContains tag "Bear" then "#dc3545"
  else "#6c757d"

/-- The rendered card of one known pick. -/
def pickCard (pick : TopPick) (item : NewsItem) : String :=
  "\n            <div class=\"pick-card\" style=\"background:#fff; padding:15px; margin-bottom:12px; border-radius:8px; border:1px solid #eee;\">\n                <div class=\"pick-header\">\n                    <span style=\"background:" ++
    tagColor (pick.tag.getD "Neutral") ++
    "; color:white; padding:2px 6px; border-radius:3px; font-size:10px;\">" ++
    pick.tag.getD "Neutral" ++
    "</span>\n                    <a href=\"" ++ item.link ++
    "\" style=\"text-decoration:none; color:#000; font-weight:bold;\">" ++ item.title ++
    "</a>\n                </div>\n                <div style=\"margin-top:8px; font-size:13px; color:#666;\">\n                    <span style=\"background:#eee; padding:2px 5px;\">" ++
    item.source ++ "</span> 💡 " ++ pick.reason ++
    "\n                </div>\n            </div>\n            "

/-- The picks loop: a card for every pick whose id is a key of the store,
nothing for the rest. -/
def picksHtml (db : NewsDatabase) : List TopPick → String
  | [] => ""
  | p :: rest =>
    (match db.find p.id with
     | some item => pickCard p item
     | none => "") ++ picksHtml db rest

/-- Decimal text of an integer (display only). -/
def intStr (i : Int) : String :=
  if i < 0 then "-" ++ natStr i.natAbs else natStr i.natAbs

/-- Display text of a parsed score (an unparsable score has no canonical
display; the claims do not depend on it). -/
def scoreText : ScoreInput → String
  | .num q => if q.den = 1 then intStr q.num else intStr q.num ++ "/" ++ natStr q.den
  | .unparsable => ""

/-- The outer HTML template of `generate_email_html`. -/
def emailShell (score : ScoreInput)
    (label reason color final_analysis picks_html today : String) : String :=
  "\n    <html>\n    <head><style>body\x7bfont-family:\x27Segoe UI\x27,sans-serif;max-width:700px;margin:0 auto;padding:20px;background:#f4f6f9;color:#333;\x7d</style></head>\n    <body>\n        <div style=\"background:#fff; padding:20px; border-radius:12px; text-align:center; border-top:5px solid " ++
    color ++ "; margin-bottom:25px;\">\n            <div style=\"font-size:12px; color:#999;\">MARKET SENTIMENT INDEX</div>\n            <div style=\"font-size:48px; font-weight:bold; color:" ++
    color ++ ";\">" ++ scoreText score ++
    "</div>\n            <div style=\"font-size:18px; font-weight:600;\">" ++ label ++
    "</div>\n            <div style=\"font-style:italic; color:#777; margin-top:10px;\">\"" ++
    reason ++
    "\"</div>\n        </div>\n        <h3>📊 全球市场宏观综述</h3>\n        <div style=\"background:#fff; padding:25px; border-radius:8px; line-height:1.8;\">" ++
    final_analysis ++
    "</div>\n        <h3>🔥 核心关注</h3>\n        " ++ picks_html ++
    "\n        <div style=\"text-align:center; font-size:12px; color:#aaa; margin-top:40px;\">" ++
    today ++ " • Community Edition</div>\n    </body></html>\n    "

/-- `generate_email_html`: defaults for every missing field, citation
resolution over the newline-converted analysis text, the picks loop, and
the outer template.  The generation date is passed in (`datetime.now`). -/
def generate_email_html (db : NewsDatabase) (ai_result : AnalysisResult)
    (today : String) : String :=
  let score := ai_result.sentiment_score.getD (ScoreInput.num 0)
  let label := ai_result.sentiment_label.getD "Neutral"
  let reason := ai_result.sentiment_reason.getD "No data"
  let color := get_sentiment_color score
  let raw_analysis := newlineToBr (ai_result.analysis_html.getD "")
  let final_analysis := process_citations db raw_analysis
  let picks_html := picksHtml db (ai_result.top_picks.getD [])
  emailShell score label reason color final_analysis picks_html today

theorem picksHtml_eq (db : NewsDatabase) (ps : List TopPick) :
    picksHtml db ps =
      strConcat (ps.filterMap (fun p => (db.find p.id).map (pickCard p))) := by
  induction ps with
  | nil => rfl
  | cons p rest ih =>
    show (match db.find p.id with
          | some item => pickCard p item
          | none => "") ++ picksHtml db rest = _
    cases hf : db.find p.id with
    | none =>
      rw [List.filterMap_cons]
      rw [hf]
      show ("" : String) ++ picksHtml db rest = _
      rw [ih]
      rfl
    | some item =>
      rw [List.filterMap_cons]
      rw [hf]
      show pickCard p item ++ picksHtml db rest = _
      rw [ih]
      rfl

/-- C8: the renderer drops every pick whose id is unknown to the store and
renders a card for every known pick (in order); an absent `top_picks` field
behaves exactly like an empty one, giving an empty picks section, and the
renderer is a total function of the analysis record (missing fields take
defaults; nothing can raise). -/
theorem picks_render_c8 (db : NewsDatabase) (ps : List TopPick)
    (ar : AnalysisResult) (today : String) :
    picksHtml db ps =
      strConcat (ps.filterMap (fun p => (db.find p.id).map (pickCard p))) ∧
    picksHtml db [] = "" ∧
    generate_email_html db { ar with top_picks := none } today =
      generate_email_html db { ar with top_picks := some [] } today ∧
    generate_email_html db ar today =
      emailShell (ar.sentiment_score.getD (ScoreInput.num 0))
        (ar.sentiment_label.getD "Neutral") (ar.sentiment_reason.getD "No data")
        (get_sentiment_color (ar.sentiment_score.getD (ScoreInput.num 0)))
        (process_citations db (newlineToBr (ar.analysis_html.getD "")))
        (picksHtml db (ar.top_picks.getD [])) today :=
  ⟨picksHtml_eq db ps, rfl, rfl, rfl⟩

/-! ## Ingestion (`fetch_all_rss`) -/

/-- Outcome of `feedparser.parse` for one category: a list of entries, or
a raised exception (caught per category in the source). -/
inductive FeedResult where
  | ok (entries : List RawEntry)
  | failed
deriving DecidableEq

/-- Number of entries the loop consumes for one category
(`MAX_ITEMS_PER_SOURCE = 10`). -/
def feedCount : FeedResult → Nat
  | .ok es => min es.length 10
  | .failed => 0

/-- `fetch_all_rss`: per category, cap the entries at 10 and add each to
the store; an exception or an empty feed skips the category and the loop
continues; returns the total count of items added and the final store. -/
def fetch_all_rss : NewsDatabase → List (String × FeedResult) → Nat × NewsDatabase
  | db, [] => (0, db)
  | db, (_, FeedResult.failed) :: rest => fetch_all_rss db rest
  | db, (category, FeedResult.ok entries) :: rest =>
    if entries.isEmpty then fetch_all_rss db rest
    else
      let consumed := entries.take 10
      let db2 := consumed.foldl (fun d e => (d.add category e).2) db
      let r := fetch_all_rss db2 rest
      (consumed.length + r.1, r.2)

theorem fetch_total : ∀ (srcs : List (String × FeedResult)) (db : NewsDatabase),
    (fetch_all_rss db srcs).1 = (srcs.map (fun s => feedCount s.2)).sum := by
  intro srcs
  induction srcs with
  | nil => intro db; rfl
  | cons s rest ih =>
    intro db
    obtain ⟨c, fr⟩ := s
    cases fr with
    | failed =>
      show (fetch_all_rss db rest).1 = _
      rw [ih db]
      simp [feedCount]
    | ok es =>
      by_cases hes : es.isEmpty
      · have hnil : es = [] := List.isEmpty_iff.mp hes
        subst hnil
        show (fetch_all_rss db rest).1 = _
        rw [ih db]
        simp [feedCount]
      · simp only [fetch_all_rss]
        rw [if_neg hes]
        show (es.take 10).length + (fetch_all_rss _ rest).1 = _
        rw [ih]
        simp [feedCount, List.length_take, Nat.min_comm]

theorem foldAdd_spec : ∀ (es : List RawEntry) (db : NewsDatabase) (c : String) (m : Nat),
    keysOf db = List.range' 1 m → db.current_id = m + 1 →
    keysOf (es.foldl (fun d e => (d.add c e).2) db) = List.range' 1 (m + es.length) ∧
    (es.foldl (fun d e => (d.add c e).2) db).current_id = m + es.length + 1 ∧
    (es.foldl (fun d e => (d.add c e).2) db).items.map (fun p => p.2.source) =
      db.items.map (fun p => p.2.source) ++ List.replicate es.length c := by
  intro es
  induction es with
  | nil =>
    intro db c m hk hc
    exact ⟨by simpa using hk, by simpa using hc, by simp⟩
  | cons e es ih =>
    intro db c m hk hc
    obtain ⟨_, hitems, hk', hc'⟩ := add_step db c e m hk hc
    have hrec := ih (db.add c e).2 c (m + 1) hk' (by omega)
    have hsrc : (db.add c e).2.items.map (fun p => p.2.source) =
        db.items.map (fun p => p.2.source) ++ [c] := by
      rw [hitems]
      simp
    refine ⟨?_, ?_, ?_⟩
    · show keysOf (es.foldl _ (db.add c e).2) = _
      rw [hrec.1]
      congr 1
      simp
      omega
    · show (es.foldl _ (db.add c e).2).current_id = _
      rw [hrec.2.1]
      simp
      omega
    · show (es.foldl _ (db.add c e).2).items.map _ = _
      rw [hrec.2.2, hsrc]
      rw [List.append_assoc]
      congr 1

theorem fetch_spec : ∀ (srcs : List (String × FeedResult)) (db : NewsDatabase) (m : Nat),
    keysOf db = List.range' 1 m → db.current_id = m + 1 →
    keysOf (fetch_all_rss db srcs).2 =
      List.range' 1 (m + (srcs.map (fun s => feedCount s.2)).sum) ∧
    (fetch_all_rss db srcs).2.items.map (fun p => p.2.source) =
      db.items.map (fun p => p.2.source) ++
        (srcs.map (fun s => List.replicate (feedCount s.2) s.1)).flatten := by
  intro srcs
  induction srcs with
  | nil =>
    intro db m hk _
    refine ⟨by simpa using hk, ?_⟩
    show db.items.map (fun p => p.2.source) = _
    simp
  | cons s rest ih =>
    intro db m hk hc
    obtain ⟨c, fr⟩ := s
    cases fr with
    | failed =>
      have hrec := ih db m hk hc
      refine ⟨?_, ?_⟩
      · show keysOf (fetch_all_rss db rest).2 = _
        rw [hrec.1]
        congr 1
        simp [feedCount]
      · show (fetch_all_rss db rest).2.items.map _ = _
        rw [hrec.2]
        simp [feedCount]
    | ok es =>
      by_cases hes : es.isEmpty
      · have hnil : es = [] := List.isEmpty_iff.mp hes
        subst hnil
        have hrec := ih db m hk hc
        refine ⟨?_, ?_⟩
        · show keysOf (fetch_all_rss db rest).2 = _
          rw [hrec.1]
          congr 1
          simp [feedCount]
        · show (fetch_all_rss db rest).2.items.map _ = _
          rw [hrec.2]
          simp [feedCount]
      · have hfold := foldAdd_spec (es.take 10) db c m hk hc
        have hlen : (es.take 10).length = feedCount (FeedResult.ok es) := by
          simp [feedCount, List.length_take, Nat.min_comm]
        have hrec := ih ((es.take 10).foldl (fun d e => (d.add c e).2) db)
          (m + (es.take 10).length) hfold.1 (by omega)
        refine ⟨?_, ?_⟩
        · simp only [fetch_all_rss]
          rw [if_neg hes]
          show keysOf (fetch_all_rss _ rest).2 = _
          rw [hrec.1]
          congr 1
          rw [hlen]
          simp
          omega
        · simp only [fetch_all_rss]
          rw [if_neg hes]
          show (fetch_all_rss _ rest).2.items.map _ = _
          rw [hrec.2, hfold.2.2]
          rw [List.append_assoc]
          congr 1
          rw [hlen]
          simp

/-- C9: ingestion consumes at most 10 entries per category, stores each
consumed entry under its category's label with the usual sequential ids,
returns the total count added across categories, and a failing or empty
feed is skipped without aborting the remaining categories. -/
theorem ingestion_c9 (db : NewsDatabase) (category : String)
    (rest srcs : List (String × FeedResult)) :
    fetch_all_rss db ((category, FeedResult.failed) :: rest) = fetch_all_rss db rest ∧
    fetch_all_rss db ((category, FeedResult.ok []) :: rest) = fetch_all_rss db rest ∧
    (fetch_all_rss db srcs).1 = (srcs.map (fun s => feedCount s.2)).sum ∧
    (∀ s : String × FeedResult, feedCount s.2 ≤ 10) ∧
    keysOf (fetch_all_rss emptyDb srcs).2 =
      List.range' 1 ((srcs.map (fun s => feedCount s.2)).sum) ∧
    (fetch_all_rss emptyDb srcs).2.items.map (fun p => p.2.source) =
      (srcs.map (fun s => List.replicate (feedCount s.2) s.1)).flatten := by
  have hspec := fetch_spec srcs emptyDb 0 rfl rfl
  refine ⟨rfl, rfl, fetch_total srcs db, ?_, by simpa using hspec.1, by simpa using hspec.2⟩
  intro s
  cases hs : s.2 with
  | ok es => simp [feedCount]
  | failed => simp [feedCount]
